import Mathlib

/-!
# Verification of the dashboard data core (`src/Dashboard.js`)

A shallow embedding of the verifiable core of the dashboard source:

* the `GeoBrainApiService` token lifecycle (`isTokenExpired`,
  `parseTokenExpiry`, `login` dedup, `request` auth retry,
  `fetchAllEmpreendimentos` pagination, `transformData` normalization), and
* the filter / aggregation layer (`DEFAULT_FILTERS`, `filteredData`,
  `vgvPorCidade`, `vgvPorTipo`, `vgvPorPadrao`).

Modelling conventions, stated once:

* JavaScript numbers are modelled as `Int`; `NaN` is represented explicitly
  (`JValue.vnan` for raw values, `Option Int` with `none` = NaN for parsed
  numeric fields).  None of the verified properties depend on fractional
  values, only on truthiness, ordering and exact sums.
* `parseInt` / `parseFloat` are modelled by a common leading-digits parser
  over this integer abstraction (they differ only on fractional input).
* Raw upstream records are opaque JS objects, modelled as total functions
  `String → JValue` (an absent property reads as `undefined`).
* `Date.now()`, `new Date().getFullYear()` and `new Date().toISOString()`
  are passed in as explicit parameters (`now`, `currentYear`, `nowIso`).
* The single-threaded JS event loop is modelled by explicit event sequences:
  an `async` computation runs atomically between `await` points, and a
  promise settles in a separate `settle` step.
-/

namespace Dashboard

/-! ## JavaScript value model -/

/-- A JavaScript value as far as the dashboard core observes it: strings,
(integer-abstracted) numbers, `NaN`, `null`, `undefined`, booleans. -/
inductive JValue where
  | vstr (s : String)
  | vnum (n : Int)
  | vnan
  | vnull
  | vundefined
  | vbool (b : Bool)
deriving DecidableEq, Repr

/-- JS truthiness: `""`, `0`, `NaN`, `null`, `undefined` and `false` are
falsy, everything else is truthy. -/
def truthy : JValue → Bool
  | .vstr s => !s.isEmpty
  | .vnum n => n != 0
  | .vnan => false
  | .vnull => false
  | .vundefined => false
  | .vbool b => b

/-- The JS `a || b || ... || dflt` fallback chain: the first truthy value,
else the final default. -/
def pick : List JValue → JValue → JValue
  | [], d => d
  | v :: vs, d => if truthy v then v else pick vs d

/-- Longest leading run of decimal digits. -/
def leadingDigits : List Char → List Char
  | [] => []
  | c :: cs => if c.isDigit then c :: leadingDigits cs else []

/-- Value of a digit string. -/
def digitsVal (cs : List Char) : Nat :=
  cs.foldl (fun a c => a * 10 + (c.toNat - 48)) 0

/-- Parse a leading (optionally `-`-signed) integer from a string, `none`
when there is none (JS `parseInt`/`parseFloat` return `NaN` there). -/
def parseLeadingInt (s : String) : Option Int :=
  match s.toList with
  | '-' :: rest =>
      let ds := leadingDigits rest
      if ds.isEmpty then none else some (-(digitsVal ds : Int))
  | cs =>
      let ds := leadingDigits cs
      if ds.isEmpty then none else some (digitsVal ds : Int)

/-- JS `parseInt`/`parseFloat` on a `JValue`, under the integer abstraction
(the two agree on everything but fractional input, which the abstraction
drops): a number parses to itself, a string to its leading integer, and
every other value (including `NaN`) to `NaN` (`none`). -/
def jsParseNum : JValue → Option Int
  | .vnum n => some n
  | .vstr s => parseLeadingInt s
  | _ => none

/-! ## Session manager: token expiry (`isTokenExpired`, `parseTokenExpiry`,
success path of `login`) -/

/-- A bearer token; its base64/JSON-encoded `exp` payload claim is abstracted
to `expClaim` (`none` when the claim cannot be decoded). -/
structure Token where
  expClaim : Option Int
deriving DecidableEq, Repr

/-- The token-owning fields of the `GeoBrainApiService` singleton
(`this.token`, `this.tokenExpiresAt`). -/
structure SvcState where
  token : Option Token
  tokenExpiresAt : Int
deriving DecidableEq, Repr

/-- `isTokenExpired()`: no token, or `Date.now() >= tokenExpiresAt - 60000`
(60-second safety buffer). -/
def isTokenExpired (now : Int) (s : SvcState) : Bool :=
  match s.token with
  | none => true
  | some _ => decide (now ≥ s.tokenExpiresAt - 60000)

/-- `parseTokenExpiry(token)`: the decoded `exp` claim in milliseconds, or
`now + 50 minutes` when the claim cannot be decoded. -/
def parseTokenExpiry (now : Int) (t : Token) : Int :=
  match t.expClaim with
  | some e => e * 1000
  | none => now + 50 * 60 * 1000

/-- The state update performed by a successful `login()`:
`this.token = ...; this.tokenExpiresAt = this.parseTokenExpiry(this.token)`. -/
def loginUpdate (now : Int) (t : Token) (_s : SvcState) : SvcState :=
  { token := some t, tokenExpiresAt := parseTokenExpiry now t }

/-! ## Paginated fetcher (`fetchAllEmpreendimentos`) -/

/-- Server pagination metadata (`response.meta`). -/
structure PageMeta where
  total : Nat
  last_page : Nat
deriving DecidableEq, Repr

/-- One page response: `{ data, meta? }`.  Polymorphic in the record type,
since the fetcher passes `response.data` through untouched; a missing
`data` field is modelled as `[]` (both break the loop identically). -/
structure PageResponse (α : Type) where
  data : List α
  meta : Option PageMeta
deriving DecidableEq, Repr

/-- The fixed `per_page` request size. -/
def perPage : Nat := 100

/-- `hasMore` at page `page`:
`response.meta ? page < response.meta.last_page : response.data.length === perPage`. -/
def hasMore (r : PageResponse α) (page : Nat) : Bool :=
  match r.meta with
  | some m => decide (page < m.last_page)
  | none => decide (r.data.length = perPage)

/-- The `while (true)` body of `fetchAllEmpreendimentos`, with explicit fuel:
`pages p` is the server's response to `GET ...?page=p`; `none` means the
loop is still running when the fuel runs out (non-termination witness). -/
def fetchAllAux (pages : Nat → PageResponse α) :
    Nat → Nat → List α → Option (List α)
  | 0, _, _ => none
  | fuel + 1, page, acc =>
      let r := pages page
      if r.data.isEmpty then some acc
      else if hasMore r page then fetchAllAux pages fuel (page + 1) (acc ++ r.data)
      else some (acc ++ r.data)

/-- `fetchAllEmpreendimentos`: start at page 1 with an empty accumulator. -/
def fetchAll (pages : Nat → PageResponse α) (fuel : Nat) : Option (List α) :=
  fetchAllAux pages fuel 1 []

/-- The stop condition of the loop at page `page`: empty `data`, or
`hasMore` false (metadata says this is the last page, or — without
metadata — the page was short). -/
def stopsAt (r : PageResponse α) (page : Nat) : Bool :=
  r.data.isEmpty || !hasMore r page

/-! ## `request`: auth retry -/

/-- Observable events of one `request(...)` call: a `login()` network
exchange, a page fetch returning `status`, a cached-token invalidation
(`this.token = null`). -/
inductive ReqEvent where
  | login
  | attempt (status : Nat)
  | invalidate
deriving DecidableEq, Repr

/-- JS `res.ok`: status in the 200–299 range. -/
def jsOk (status : Nat) : Bool :=
  decide (200 ≤ status) && decide (status ≤ 299)

/-- `request(endpoint, options, retryCount)`.  `statuses k` is the HTTP
status the server answers to the `k`-th attempt of this request; `fresh`
and `freshExp` describe the token a (successful) `login()` installs.
Returns the outcome (`.ok` for the parsed body, abstracted to `Unit`,
`.error status` for a thrown `API Error: status`), the final service state
and the event trace.  Mirrors the source: `ensureValidToken()`, fetch, and
on a 401 with `retryCount < 2`: invalidate, `login()`, retry the same
request with `retryCount + 1`. -/
def requestAux (now : Int) (fresh : Token) (statuses : Nat → Nat)
    (s : SvcState) (retryCount : Nat) :
    Except Nat Unit × SvcState × List ReqEvent :=
  -- `await this.ensureValidToken()`
  let s1 := if isTokenExpired now s then loginUpdate now fresh s else s
  let ev0 : List ReqEvent := if isTokenExpired now s then [.login] else []
  let st := statuses retryCount
  if h : st = 401 ∧ retryCount < 2 then
    let s2 : SvcState := { s1 with token := none }
    let s3 := loginUpdate now fresh s2
    let r := requestAux now fresh statuses s3 (retryCount + 1)
    (r.1, r.2.1, ev0 ++ [.attempt st, .invalidate, .login] ++ r.2.2)
  else if jsOk st then (.ok (), s1, ev0 ++ [.attempt st])
  else (.error st, s1, ev0 ++ [.attempt st])
termination_by 2 - retryCount
decreasing_by omega

/-- A `request` call as issued by the fetcher (`retryCount = 0`). -/
def request (now : Int) (fresh : Token) (statuses : Nat → Nat)
    (s : SvcState) : Except Nat Unit × SvcState × List ReqEvent :=
  requestAux now fresh statuses s 0

/-- Number of page-fetch attempts in a trace. -/
def attemptsOf : List ReqEvent → Nat
  | [] => 0
  | .attempt _ :: tr => attemptsOf tr + 1
  | _ :: tr => attemptsOf tr

/-! ## `login`: deduplication of concurrent refreshes

The JS event loop runs each `login()` call body atomically: it reads
`this.refreshPromise`, and either returns the pending promise or installs a
new one (whose async body has by then already issued the network call, since
the body runs synchronously up to its first `await`).  The `finally` clause
clears the marker when the promise settles.  We model this with a refresh
manager state and two atomic steps, `loginCall` and `settle`. -/

/-- Refresh-manager state: the pending promise (by id) if a refresh is in
flight, a fresh-promise counter, and the number of login network calls
issued so far. -/
structure Mgr where
  refreshPromise : Option Nat
  nextId : Nat
  networkCalls : Nat
deriving DecidableEq, Repr

/-- One `login()` call: return the pending promise if there is one,
otherwise install a fresh promise and issue the network exchange. -/
def loginCall (m : Mgr) : Nat × Mgr :=
  match m.refreshPromise with
  | some p => (p, m)
  | none =>
      (m.nextId,
       { refreshPromise := some m.nextId,
         nextId := m.nextId + 1,
         networkCalls := m.networkCalls + 1 })

/-- The promise settling (fulfilment or rejection): the `finally` clause
clears the in-flight marker in either case. -/
def settle (m : Mgr) : Mgr :=
  { m with refreshPromise := none }

/-- `k` consecutive `login()` calls (no settle in between); returns the
promises observed by the callers, oldest first, and the final state. -/
def loginCalls : Nat → Mgr → List Nat × Mgr
  | 0, m => ([], m)
  | k + 1, m =>
      let (p, m') := loginCall m
      let (ps, m'') := loginCalls k m'
      (p :: ps, m'')

/-! ## Normalizer (`transformData`) -/

/-- A raw upstream record: an opaque JS object, read by property name. -/
def RawRecord : Type := String → JValue

/-- The canonical record shape produced by `transformData`.  String-ish
fields keep the raw `JValue` that won the fallback chain; numeric fields
hold the `parseInt`/`parseFloat` result (`none` = `NaN`). -/
@[ext]
structure NormalizedRecord where
  id : JValue
  nome : JValue
  cidade : JValue
  estado : JValue
  bairro : JValue
  incorporadora : JValue
  tipo : JValue
  padrao : JValue
  tipoImovel : JValue
  quartos : Option Int
  vgvTotal : Option Int
  vgvVendido : Option Int
  unidadesVendidas : Option Int
  totalUnidades : Option Int
  preco : Option Int
  m2 : Option Int
  valorM2 : Option Int
  status : JValue
  anoLancamento : Option Int
  dataAtualizacao : JValue
deriving DecidableEq, Repr

/-- The body of the `apiData.map((emp, index) => ({...}))` arrow in
`transformData`, field by field from the source; `currentYear` stands for
`new Date().getFullYear()` and `nowIso` for `new Date().toISOString()`. -/
def normalizeOne (currentYear : Int) (nowIso : String) (index : Nat)
    (emp : RawRecord) : NormalizedRecord where
  id := pick [emp "id"] (.vnum index)
  nome := pick [emp "nome", emp "empreendimento", emp "name"] (.vstr "N/A")
  cidade := pick [emp "cidade", emp "city"] (.vstr "N/A")
  estado := pick [emp "estado", emp "uf", emp "state"] (.vstr "N/A")
  bairro := pick [emp "bairro", emp "neighborhood"] (.vstr "N/A")
  incorporadora :=
    pick [emp "incorporadora", emp "construtora", emp "developer"] (.vstr "N/A")
  tipo := pick [emp "tipo", emp "type"] (.vstr "Vertical")
  padrao := pick [emp "padrao", emp "standard"] (.vstr "Standard")
  tipoImovel :=
    pick [emp "tipologia", emp "tipo_imovel", emp "property_type"] (.vstr "Padrao")
  quartos :=
    jsParseNum (pick [emp "quartos", emp "dormitorios", emp "bedrooms"] (.vnum 2))
  vgvTotal :=
    jsParseNum (pick [emp "vgv_total", emp "vgv", emp "total_value"] (.vnum 0))
  vgvVendido := jsParseNum (pick [emp "vgv_vendido", emp "sold_value"] (.vnum 0))
  unidadesVendidas :=
    jsParseNum (pick [emp "unidades_vendidas", emp "sold_units"] (.vnum 0))
  totalUnidades :=
    jsParseNum (pick [emp "total_unidades", emp "unidades", emp "total_units"] (.vnum 0))
  preco :=
    jsParseNum (pick [emp "preco_medio", emp "ticket_medio", emp "average_price"] (.vnum 0))
  m2 := jsParseNum (pick [emp "area_privativa", emp "m2", emp "private_area"] (.vnum 0))
  valorM2 := jsParseNum (pick [emp "valor_m2", emp "price_per_sqm"] (.vnum 0))
  status := pick [emp "status"] (.vstr "Comercializacao")
  anoLancamento :=
    jsParseNum (pick [emp "ano_lancamento", emp "ano", emp "launch_year"] (.vnum currentYear))
  dataAtualizacao := pick [emp "updated_at", emp "data_atualizacao"] (.vstr nowIso)

/-- The indexed map underlying `transformData` (`.map((emp, index) => ...)`),
written as structural recursion carrying the index. -/
def transformFrom (currentYear : Int) (nowIso : String) :
    Nat → List RawRecord → List NormalizedRecord
  | _, [] => []
  | index, emp :: rest =>
      normalizeOne currentYear nowIso index emp ::
        transformFrom currentYear nowIso (index + 1) rest

/-- `transformData(apiData)`. -/
def transformData (currentYear : Int) (nowIso : String)
    (apiData : List RawRecord) : List NormalizedRecord :=
  transformFrom currentYear nowIso 0 apiData

/-- Write a parsed numeric field back as a raw JS value (`NaN` stays `NaN`). -/
def numToJ : Option Int → JValue
  | some n => .vnum n
  | none => .vnan

/-- Re-expose a normalized record as a raw record keyed by each field's
primary alias (the "canonical field names read back through the default
alias chains"). -/
def toRaw (r : NormalizedRecord) : RawRecord := fun f =>
  if f = "id" then r.id
  else if f = "nome" then r.nome
  else if f = "cidade" then r.cidade
  else if f = "estado" then r.estado
  else if f = "bairro" then r.bairro
  else if f = "incorporadora" then r.incorporadora
  else if f = "tipo" then r.tipo
  else if f = "padrao" then r.padrao
  else if f = "tipologia" then r.tipoImovel
  else if f = "quartos" then numToJ r.quartos
  else if f = "vgv_total" then numToJ r.vgvTotal
  else if f = "vgv_vendido" then numToJ r.vgvVendido
  else if f = "unidades_vendidas" then numToJ r.unidadesVendidas
  else if f = "total_unidades" then numToJ r.totalUnidades
  else if f = "preco_medio" then numToJ r.preco
  else if f = "area_privativa" then numToJ r.m2
  else if f = "valor_m2" then numToJ r.valorM2
  else if f = "status" then r.status
  else if f = "ano_lancamento" then numToJ r.anoLancamento
  else if f = "updated_at" then r.dataAtualizacao
  else .vundefined

/-! ## Filter engine (`DEFAULT_FILTERS`, `filteredData`) -/

/-- The filter selection.  Categorical dimensions hold the list of checked
values (`Array.includes` compares with SameValueZero, which `DecidableEq`
matches — including `NaN` equalling `NaN` for the parsed `quartos` /
`anosLancamento` values); numeric dimensions hold `[min, max]` pairs. -/
structure Filters where
  estados : List JValue
  cidades : List JValue
  bairros : List JValue
  padroes : List JValue
  status : List JValue
  tipos : List JValue
  tiposImovel : List JValue
  quartos : List (Option Int)
  anosLancamento : List (Option Int)
  incorporadoras : List JValue
  m2Range : Int × Int
  ticketRange : Int × Int
  valorM2Range : Int × Int
deriving DecidableEq, Repr

/-- `DEFAULT_FILTERS`: no categorical selection, fixed full-domain ranges. -/
def DEFAULT_FILTERS : Filters where
  estados := []
  cidades := []
  bairros := []
  padroes := []
  status := []
  tipos := []
  tiposImovel := []
  quartos := []
  anosLancamento := []
  incorporadoras := []
  m2Range := (0, 2000)
  ticketRange := (0, 100000000)
  valorM2Range := (0, 100000)

/-- JS `v < b` on a parsed numeric field: any comparison with `NaN` is
false. -/
def jsLt (v : Option Int) (b : Int) : Bool :=
  match v with
  | none => false
  | some x => decide (x < b)

/-- JS `v > b` on a parsed numeric field: any comparison with `NaN` is
false. -/
def jsGt (v : Option Int) (b : Int) : Bool :=
  match v with
  | none => false
  | some x => decide (b < x)

/-- The per-record predicate of the `filteredData` memo, clause for clause:
each non-empty categorical list must contain the record's value, and each
`if (i.x < range[0] || i.x > range[1]) return false` numeric check must
pass. -/
def matchesRecord (f : Filters) (i : NormalizedRecord) : Bool :=
  (f.estados.isEmpty || f.estados.contains i.estado) &&
  (f.cidades.isEmpty || f.cidades.contains i.cidade) &&
  (f.bairros.isEmpty || f.bairros.contains i.bairro) &&
  (f.padroes.isEmpty || f.padroes.contains i.padrao) &&
  (f.status.isEmpty || f.status.contains i.status) &&
  (f.tipos.isEmpty || f.tipos.contains i.tipo) &&
  (f.tiposImovel.isEmpty || f.tiposImovel.contains i.tipoImovel) &&
  (f.quartos.isEmpty || f.quartos.contains i.quartos) &&
  (f.anosLancamento.isEmpty || f.anosLancamento.contains i.anoLancamento) &&
  (f.incorporadoras.isEmpty || f.incorporadoras.contains i.incorporadora) &&
  !(jsLt i.m2 f.m2Range.1 || jsGt i.m2 f.m2Range.2) &&
  !(jsLt i.preco f.ticketRange.1 || jsGt i.preco f.ticketRange.2) &&
  !(jsLt i.valorM2 f.valorM2Range.1 || jsGt i.valorM2 f.valorM2Range.2)

/-- `filteredData`: `rawData.filter(i => ...)`. -/
def filteredData (rawData : List NormalizedRecord) (f : Filters) :
    List NormalizedRecord :=
  rawData.filter (matchesRecord f)

/-! ## Aggregation engine (`vgvPorCidade`, `vgvPorTipo`, `vgvPorPadrao`) -/

/-- `i.v || 0` on a parsed numeric field: a number is kept, `NaN` becomes 0
(and 0 stays 0 either way). -/
def jsum : Option Int → Int
  | some n => n
  | none => 0

/-- A launched-value-only group entry (`{ tipo, vgvTotal }`). -/
structure GroupTot where
  key : JValue
  vgvTotal : Int
deriving DecidableEq, Repr

/-- A launched+sold group entry (`{ cidade/padrao, vgvTotal, vgvVendido }`). -/
structure GroupTotSold where
  key : JValue
  vgvTotal : Int
  vgvVendido : Int
deriving DecidableEq, Repr

/-- One step of the grouping loop for launched+sold series: create the
group on first encounter (JS object insertion order = append), then add
`i.vgvTotal || 0` and `i.vgvVendido || 0` into it.  JS keys the object by
the string coercion of the dimension value; we key by the value itself,
which agrees on the string-valued dimensions in play. -/
def upsertTS (key : NormalizedRecord → JValue)
    (acc : List GroupTotSold) (i : NormalizedRecord) : List GroupTotSold :=
  if acc.any (fun e => e.key = key i) then
    acc.map fun e =>
      if e.key = key i then
        { e with vgvTotal := e.vgvTotal + jsum i.vgvTotal,
                 vgvVendido := e.vgvVendido + jsum i.vgvVendido }
      else e
  else
    acc ++ [{ key := key i, vgvTotal := jsum i.vgvTotal,
              vgvVendido := jsum i.vgvVendido }]

/-- The grouping loop (`filteredData.forEach`) for launched+sold series. -/
def groupTS (key : NormalizedRecord → JValue) (l : List NormalizedRecord) :
    List GroupTotSold :=
  l.foldl (upsertTS key) []

/-- One step of the grouping loop for the launched-only (`tipo`) series. -/
def upsertT (key : NormalizedRecord → JValue)
    (acc : List GroupTot) (i : NormalizedRecord) : List GroupTot :=
  if acc.any (fun e => e.key = key i) then
    acc.map fun e =>
      if e.key = key i then { e with vgvTotal := e.vgvTotal + jsum i.vgvTotal }
      else e
  else
    acc ++ [{ key := key i, vgvTotal := jsum i.vgvTotal }]

/-- The grouping loop for the launched-only (`tipo`) series. -/
def groupT (key : NormalizedRecord → JValue) (l : List NormalizedRecord) :
    List GroupTot :=
  l.foldl (upsertT key) []

/-- Insert into a descending-by-`vgvTotal` list, after every entry whose
total is ≥ the new one (so ties keep encounter order). -/
def sortInsert (x : GroupTotSold) : List GroupTotSold → List GroupTotSold
  | [] => [x]
  | y :: ys => if y.vgvTotal < x.vgvTotal then x :: y :: ys else y :: sortInsert x ys

/-- `.sort((a, b) => b.vgvTotal - a.vgvTotal)`: JS `Array.prototype.sort` is
stable, and every stable sort of a total preorder produces the same list,
so we model it by stable insertion sort. -/
def sortByTotalDesc (l : List GroupTotSold) : List GroupTotSold :=
  l.foldl (fun acc x => sortInsert x acc) []

/-- `vgvPorCidade`: group by `cidade`, sort descending by launched value,
`.slice(0, 8)`. -/
def vgvPorCidade (l : List NormalizedRecord) : List GroupTotSold :=
  (sortByTotalDesc (groupTS (·.cidade) l)).take 8

/-- `vgvPorTipo`: group by `tipo` and return `Object.values(g)` as is —
neither sorted nor truncated in the source. -/
def vgvPorTipo (l : List NormalizedRecord) : List GroupTot :=
  groupT (·.tipo) l

/-- `vgvPorPadrao`: group by `padrao`, sort descending by launched value,
`.slice(0, 8)`. -/
def vgvPorPadrao (l : List NormalizedRecord) : List GroupTotSold :=
  (sortByTotalDesc (groupTS (·.padrao) l)).take 8

/-- Spec-side helper: first-occurrence deduplication, the insertion order of
JS object keys. -/
def firstDedup : List JValue → List JValue :=
  go []
where
  /-- Accumulating pass keeping the first occurrence of each value. -/
  go (acc : List JValue) : List JValue → List JValue
    | [] => acc
    | k :: ks => if k ∈ acc then go acc ks else go (acc ++ [k]) ks

/-- Spec-side helper: the launched-value sum of the records of one group. -/
def sumTotalFor (key : NormalizedRecord → JValue) (k : JValue)
    (l : List NormalizedRecord) : Int :=
  ((l.filter (fun i => key i = k)).map (fun i => jsum i.vgvTotal)).sum

/-- Spec-side helper: the sold-value sum of the records of one group. -/
def sumSoldFor (key : NormalizedRecord → JValue) (k : JValue)
    (l : List NormalizedRecord) : Int :=
  ((l.filter (fun i => key i = k)).map (fun i => jsum i.vgvVendido)).sum

/-! ## Spec-side predicates and concrete inputs used by the theorems -/

/-- Spec-side: a parsed numeric value "lies within the `[lo, hi]` bounds
inclusive" (a `NaN` value lies within no bounds). -/
def withinRange (v : Option Int) (lo hi : Int) : Bool :=
  match v with
  | some x => decide (lo ≤ x) && decide (x ≤ hi)
  | none => false

/-- The filter predicate exactly as the claim words it (refinement
comparison target, written from the spec, not from the source): every
non-empty categorical list contains the record's value, and every numeric
dimension's value lies within its inclusive range. -/
def matchesClaim (f : Filters) (i : NormalizedRecord) : Bool :=
  (f.estados.isEmpty || f.estados.contains i.estado) &&
  (f.cidades.isEmpty || f.cidades.contains i.cidade) &&
  (f.bairros.isEmpty || f.bairros.contains i.bairro) &&
  (f.padroes.isEmpty || f.padroes.contains i.padrao) &&
  (f.status.isEmpty || f.status.contains i.status) &&
  (f.tipos.isEmpty || f.tipos.contains i.tipo) &&
  (f.tiposImovel.isEmpty || f.tiposImovel.contains i.tipoImovel) &&
  (f.quartos.isEmpty || f.quartos.contains i.quartos) &&
  (f.anosLancamento.isEmpty || f.anosLancamento.contains i.anoLancamento) &&
  (f.incorporadoras.isEmpty || f.incorporadoras.contains i.incorporadora) &&
  withinRange i.m2 f.m2Range.1 f.m2Range.2 &&
  withinRange i.preco f.ticketRange.1 f.ticketRange.2 &&
  withinRange i.valorM2 f.valorM2Range.1 f.valorM2Range.2

/-- A normalized record is NaN-free and away from the two non-zero numeric
defaults: every parsed numeric field is an actual number, bedroom count and
launch year are non-zero (their defaults, 2 and the current year, would
overwrite a zero on re-normalization), and the update timestamp is truthy.
Exactly the inputs on which normalization can be idempotent. -/
def goodRec (r : NormalizedRecord) : Prop :=
  r.quartos.isSome ∧ r.quartos ≠ some 0 ∧
  r.vgvTotal.isSome ∧ r.vgvVendido.isSome ∧
  r.unidadesVendidas.isSome ∧ r.totalUnidades.isSome ∧
  r.preco.isSome ∧ r.m2.isSome ∧ r.valorM2.isSome ∧
  r.anoLancamento.isSome ∧ r.anoLancamento ≠ some 0 ∧
  truthy r.dataAtualizacao = true

instance (r : NormalizedRecord) : Decidable (goodRec r) := by
  unfold goodRec; infer_instance

/-- Descending-by-launched-value order on group entries. -/
def SortedDesc (l : List GroupTotSold) : Prop :=
  l.Pairwise fun a b => b.vgvTotal ≤ a.vgvTotal

instance (l : List GroupTotSold) : Decidable (SortedDesc l) := by
  unfold SortedDesc; infer_instance

/-- A raw record with every property absent. -/
def emptyRaw : RawRecord := fun _ => .vundefined

/-- A raw record with a single property set. -/
def rawWith (f : String) (v : JValue) : RawRecord :=
  fun g => if g = f then v else .vundefined

/-- A normalized record with every field at its `transformData` default
(index 0, year 2026, timestamp "T"). -/
def baseRec : NormalizedRecord where
  id := .vnum 0
  nome := .vstr "N/A"
  cidade := .vstr "N/A"
  estado := .vstr "N/A"
  bairro := .vstr "N/A"
  incorporadora := .vstr "N/A"
  tipo := .vstr "Vertical"
  padrao := .vstr "Standard"
  tipoImovel := .vstr "Padrao"
  quartos := some 2
  vgvTotal := some 0
  vgvVendido := some 0
  unidadesVendidas := some 0
  totalUnidades := some 0
  preco := some 0
  m2 := some 0
  valorM2 := some 0
  status := .vstr "Comercializacao"
  anoLancamento := some 2026
  dataAtualizacao := .vstr "T"

/-- The grouping scenario of the claim: city A with 100 and 50, city B
with 30. -/
def scenCidade : List NormalizedRecord :=
  [{ baseRec with cidade := .vstr "A", vgvTotal := some 100 },
   { baseRec with cidade := .vstr "A", vgvTotal := some 50 },
   { baseRec with cidade := .vstr "B", vgvTotal := some 30 }]

/-- Two project types in ascending launched-value order: the type series
keeps them in encounter order. -/
def cexTipo : List NormalizedRecord :=
  [{ baseRec with tipo := .vstr "X", vgvTotal := some 10 },
   { baseRec with tipo := .vstr "Y", vgvTotal := some 50 }]

/-- An adversarial server: every page is full (100 records) and carries no
metadata, so no stop condition ever applies. -/
def fullPages : Nat → PageResponse Unit :=
  fun _ => ⟨List.replicate 100 (), none⟩

/-- A benign server: page 1 is full without metadata, page 2 (and beyond)
is empty. -/
def twoPages : Nat → PageResponse Nat :=
  fun p => if p = 1 then ⟨List.replicate 100 7, none⟩ else ⟨[], none⟩

/-! # Theorems -/

/-! ## C4: token expiry -/

/-- C4: `isTokenExpired` is true iff the token is absent or the current
time has reached `tokenExpiresAt - 60000`; consequently, after a login
whose token carries a decodable expiry claim `e` (seconds), the predicate
flips from false to true exactly 60 seconds before the decoded expiry
`e * 1000` (milliseconds). -/
theorem isTokenExpired_spec (s : SvcState) (now now0 : Int) (t : Token)
    (e : Int) (s0 : SvcState) (ht : t.expClaim = some e) :
    (isTokenExpired now s = true ↔
      (s.token = none ∨ s.tokenExpiresAt - 60000 ≤ now)) ∧
    (∀ now1 : Int, isTokenExpired now1 (loginUpdate now0 t s0) =
      decide (e * 1000 - 60000 ≤ now1)) := by
  constructor
  · cases h : s.token with
    | none => simp [isTokenExpired, h]
    | some tk => simp [isTokenExpired, h, ge_iff_le]
  · intro now1
    simp [isTokenExpired, loginUpdate, parseTokenExpiry, ht, ge_iff_le]

/-- Witness for C4 at a token whose claim decodes to second 1000: expiry is
millisecond 1000000, and the predicate is false one millisecond before
940000 and true at 940000. -/
theorem isTokenExpired_spec_witness :
    isTokenExpired 940000 (loginUpdate 0 ⟨some 1000⟩ ⟨none, 0⟩) = true ∧
    isTokenExpired 939999 (loginUpdate 0 ⟨some 1000⟩ ⟨none, 0⟩) = false := by
  have h := (isTokenExpired_spec ⟨none, 0⟩ 0 0 ⟨some 1000⟩ 1000 ⟨none, 0⟩ rfl).2
  refine ⟨?_, ?_⟩
  · rw [h 940000]; decide
  · rw [h 939999]; decide

/-! ## C10: the default ranges are finite constants -/

/-- C10: under `DEFAULT_FILTERS` the numeric dimensions are genuinely
constrained: a record whose private area exceeds 2000 (or is negative),
whose average price exceeds 100000000 (or is negative), or whose
price-per-area exceeds 100000 (or is negative) fails the predicate and is
excluded from every filtered collection. -/
theorem default_filters_exclude (l : List NormalizedRecord)
    (r : NormalizedRecord)
    (h : (∃ v, r.m2 = some v ∧ (2000 < v ∨ v < 0)) ∨
         (∃ v, r.preco = some v ∧ (100000000 < v ∨ v < 0)) ∨
         (∃ v, r.valorM2 = some v ∧ (100000 < v ∨ v < 0))) :
    matchesRecord DEFAULT_FILTERS r = false ∧
    r ∉ filteredData l DEFAULT_FILTERS := by
  have hm : matchesRecord DEFAULT_FILTERS r = false := by
    rcases h with ⟨v, hv, hb⟩ | ⟨v, hv, hb⟩ | ⟨v, hv, hb⟩ <;>
      simp [matchesRecord, DEFAULT_FILTERS, jsLt, jsGt, hv] <;> omega
  refine ⟨hm, fun hr => ?_⟩
  have := (List.mem_filter.mp hr).2
  rw [hm] at this
  exact Bool.false_ne_true this

/-- Witness for C10: a record of 2500 m² of private area is kept out of the
filtered collection under the default selection. -/
theorem default_filters_exclude_witness :
    matchesRecord DEFAULT_FILTERS { baseRec with m2 := some 2500 } = false ∧
    { baseRec with m2 := some 2500 } ∉
      filteredData [{ baseRec with m2 := some 2500 }] DEFAULT_FILTERS :=
  default_filters_exclude _ _ (Or.inl ⟨2500, rfl, by decide⟩)

/-! ## C3: login deduplication -/

/-- Pending refreshes absorb `login()` calls: every caller gets the pending
promise and the state does not change. -/
theorem loginCalls_pending (k : Nat) (p : Nat) (m : Mgr)
    (h : m.refreshPromise = some p) :
    loginCalls k m = (List.replicate k p, m) := by
  induction k with
  | zero => simp [loginCalls]
  | succ k ih => simp [loginCalls, loginCall, h, ih, List.replicate_succ]

/-- C3: while a refresh is in flight every concurrent `login()` caller
observes the same pending promise, exactly one login network exchange
happens, the marker is cleared by the settle step (success and failure run
the same `finally`), and the next caller after settling starts a fresh
exchange — a failed attempt does not wedge future refreshes. -/
theorem login_dedup (m : Mgr) (k : Nat) (h : m.refreshPromise = none) :
    (loginCalls (k + 1) m).1 = List.replicate (k + 1) m.nextId ∧
    ((loginCalls (k + 1) m).2).networkCalls = m.networkCalls + 1 ∧
    ((loginCalls (k + 1) m).2).refreshPromise = some m.nextId ∧
    (settle ((loginCalls (k + 1) m).2)).refreshPromise = none ∧
    ((loginCall (settle ((loginCalls (k + 1) m).2))).2).networkCalls =
      m.networkCalls + 2 := by
  have h2 := loginCalls_pending k m.nextId
      { refreshPromise := some m.nextId, nextId := m.nextId + 1,
        networkCalls := m.networkCalls + 1 } rfl
  simp [loginCalls, loginCall, h, h2, settle, List.replicate_succ]

/-- Witness for C3: three concurrent callers from an idle manager all see
promise 5, one network call happens, and after settling a fourth caller
triggers the second network call. -/
theorem login_dedup_witness :
    (loginCalls 3 ⟨none, 5, 0⟩).1 = [5, 5, 5] ∧
    ((loginCalls 3 ⟨none, 5, 0⟩).2).networkCalls = 1 ∧
    ((loginCalls 3 ⟨none, 5, 0⟩).2).refreshPromise = some 5 ∧
    (settle ((loginCalls 3 ⟨none, 5, 0⟩).2)).refreshPromise = none ∧
    ((loginCall (settle ((loginCalls 3 ⟨none, 5, 0⟩).2))).2).networkCalls = 2 := by
  have h := login_dedup ⟨none, 5, 0⟩ 2 rfl
  simpa using h

/-! ## C2: auth retry budget -/

/-- `attemptsOf` adds over concatenation. -/
theorem attemptsOf_append (a b : List ReqEvent) :
    attemptsOf (a ++ b) = attemptsOf a + attemptsOf b := by
  induction a with
  | nil => simp [attemptsOf]
  | cons e tr ih => cases e <;> (simp [attemptsOf, ih]; try omega)

/-- With the retry budget exhausted (`retryCount = 2`) a request makes
exactly one attempt. -/
theorem attemptsOf_requestAux_two (now : Int) (fresh : Token)
    (statuses : Nat → Nat) (s : SvcState) :
    attemptsOf (requestAux now fresh statuses s 2).2.2 = 1 := by
  rw [requestAux.eq_def]
  rcases h1 : isTokenExpired now s <;>
    rcases h2 : jsOk (statuses 2) <;>
      simp [h1, h2, attemptsOf, attemptsOf_append]

/-- With one retry left a request makes at most two attempts. -/
theorem attemptsOf_requestAux_one (now : Int) (fresh : Token)
    (statuses : Nat → Nat) (s : SvcState) :
    attemptsOf (requestAux now fresh statuses s 1).2.2 ≤ 2 := by
  rw [requestAux.eq_def]
  by_cases h : statuses 1 = 401
  · rcases h1 : isTokenExpired now s <;>
      simp [h, h1, attemptsOf, attemptsOf_append, attemptsOf_requestAux_two]
  · rcases h1 : isTokenExpired now s <;>
      rcases h2 : jsOk (statuses 1) <;>
        simp [h, h1, h2, attemptsOf, attemptsOf_append]

/-- A fresh request makes at most three attempts. -/
theorem attemptsOf_requestAux_zero (now : Int) (fresh : Token)
    (statuses : Nat → Nat) (s : SvcState) :
    attemptsOf (requestAux now fresh statuses s 0).2.2 ≤ 3 := by
  rw [requestAux.eq_def]
  by_cases h : statuses 0 = 401
  · rcases h1 : isTokenExpired now s <;>
      simp [h, h1, attemptsOf, attemptsOf_append] <;>
        exact le_trans (attemptsOf_requestAux_one now fresh statuses _)
          (by omega)
  · rcases h1 : isTokenExpired now s <;>
      rcases h2 : jsOk (statuses 0) <;>
        simp [h, h1, h2, attemptsOf, attemptsOf_append]

/-- C2: a 401 invalidates the cached token, forces one re-login and retries
the same request; at most two such retries happen (three attempts in all),
and three consecutive 401s make the request fail with the auth error
(`API Error: 401`, the spec's `AuthError`) instead of retrying further.
Stated for a request starting with a valid cached token and a login
endpoint issuing unexpired tokens. -/
theorem request_auth_retry (now : Int) (fresh : Token)
    (statuses : Nat → Nat) (s : SvcState)
    (hvalid : isTokenExpired now s = false)
    (hfresh : isTokenExpired now
      { token := some fresh, tokenExpiresAt := parseTokenExpiry now fresh } = false) :
    attemptsOf (request now fresh statuses s).2.2 ≤ 3 ∧
    (statuses 0 = 401 → statuses 1 = 401 → statuses 2 = 401 →
      (request now fresh statuses s).1 = .error 401 ∧
      (request now fresh statuses s).2.2 =
        [.attempt 401, .invalidate, .login, .attempt 401, .invalidate, .login,
         .attempt 401]) ∧
    (statuses 0 = 401 → jsOk (statuses 1) = true →
      (request now fresh statuses s).1 = .ok () ∧
      (request now fresh statuses s).2.2 =
        [.attempt 401, .invalidate, .login, .attempt (statuses 1)]) := by
  refine ⟨attemptsOf_requestAux_zero now fresh statuses s, ?_, ?_⟩
  · intro h0 h1 h2
    constructor <;>
      simp [request, requestAux, h0, h1, h2, hvalid, hfresh, loginUpdate, jsOk]
  · intro h0 hok
    have h1 : statuses 1 ≠ 401 := by
      intro hc; rw [hc] at hok; simp [jsOk] at hok
    constructor <;>
      simp [request, requestAux, h0, h1, hok, hvalid, hfresh, loginUpdate]

/-- Witness for C2: with a permanently broken credential (every attempt
answers 401) a request starting from a valid token fails with 401 after
exactly three attempts. -/
theorem request_auth_retry_witness :
    attemptsOf (request 0 ⟨some 1000000⟩ (fun _ => 401)
      ⟨some ⟨some 1000000⟩, 1000000000⟩).2.2 ≤ 3 ∧
    (request 0 ⟨some 1000000⟩ (fun _ => 401)
      ⟨some ⟨some 1000000⟩, 1000000000⟩).1 = .error 401 ∧
    (request 0 ⟨some 1000000⟩ (fun _ => 401)
      ⟨some ⟨some 1000000⟩, 1000000000⟩).2.2 =
      [.attempt 401, .invalidate, .login, .attempt 401, .invalidate, .login,
       .attempt 401] := by
  have h := request_auth_retry 0 ⟨some 1000000⟩ (fun _ => 401)
    ⟨some ⟨some 1000000⟩, 1000000000⟩ (by decide) (by decide)
  exact ⟨h.1, (h.2.1 rfl rfl rfl).1, (h.2.1 rfl rfl rfl).2⟩

/-! ## C5: normalizer defaults -/

/-- A fallback chain whose default is truthy yields a truthy value. -/
theorem truthy_pick (vs : List JValue) (d : JValue) (hd : truthy d = true) :
    truthy (pick vs d) = true := by
  induction vs with
  | nil => simpa [pick]
  | cons v vs ih =>
      by_cases hv : truthy v = true
      · simp [pick, hv]
      · simp only [Bool.not_eq_true] at hv
        simp [pick, hv, ih]

/-- A truthy head short-circuits the fallback chain. -/
theorem pick_cons_truthy {v : JValue} (vs : List JValue) (d : JValue)
    (hv : truthy v = true) : pick (v :: vs) d = v := by
  simp [pick, hv]

/-- A falsy head is skipped by the fallback chain. -/
theorem pick_cons_falsy {v : JValue} (vs : List JValue) (d : JValue)
    (hv : truthy v = false) : pick (v :: vs) d = pick vs d := by
  simp [pick, hv]

/-- Counterexample to C5: on a record with every field absent, the bedroom
count defaults to 2 (not 0) and the launch year to the current year (not
0); and a truthy non-numeric string in a numeric field yields `NaN`
(`none`), not 0. -/
theorem transformData_defaults_cex :
    (transformData 2026 "T" [emptyRaw]).map (·.quartos) = [some 2] ∧
    (transformData 2026 "T" [emptyRaw]).map (·.quartos) ≠ [some 0] ∧
    (transformData 2026 "T" [emptyRaw]).map (·.anoLancamento) = [some 2026] ∧
    (transformData 2026 "T" [rawWith "vgv_total" (.vstr "abc")]).map
      (·.vgvTotal) = [none] := by
  refine ⟨?_, by decide, ?_, ?_⟩ <;> decide

/-- C5 (amended): the normalizer is total, and on a record whose fields are
all absent (falsy through every alias) it produces the source defaults:
0 for the monetary/area/unit numeric fields but 2 for the bedroom count and
the current year for the launch year, and the field-specific string
sentinels; a falsy non-numeric value in a numeric field also yields the
parsed default, while a truthy unparseable value yields `NaN` (`none`),
shown here for each numeric field's primary alias. -/
theorem transformData_defaults (y : Int) (iso : String) (idx : Nat)
    (r : RawRecord) (h : ∀ f, truthy (r f) = false) :
    normalizeOne y iso idx r =
      { id := .vnum idx, nome := .vstr "N/A", cidade := .vstr "N/A",
        estado := .vstr "N/A", bairro := .vstr "N/A",
        incorporadora := .vstr "N/A", tipo := .vstr "Vertical",
        padrao := .vstr "Standard", tipoImovel := .vstr "Padrao",
        quartos := some 2, vgvTotal := some 0, vgvVendido := some 0,
        unidadesVendidas := some 0, totalUnidades := some 0, preco := some 0,
        m2 := some 0, valorM2 := some 0, status := .vstr "Comercializacao",
        anoLancamento := some y, dataAtualizacao := .vstr iso } ∧
    (∀ r1 : RawRecord,
      (truthy (r1 "quartos") = true → jsParseNum (r1 "quartos") = none →
        (normalizeOne y iso idx r1).quartos = none) ∧
      (truthy (r1 "vgv_total") = true → jsParseNum (r1 "vgv_total") = none →
        (normalizeOne y iso idx r1).vgvTotal = none) ∧
      (truthy (r1 "vgv_vendido") = true → jsParseNum (r1 "vgv_vendido") = none →
        (normalizeOne y iso idx r1).vgvVendido = none) ∧
      (truthy (r1 "unidades_vendidas") = true →
        jsParseNum (r1 "unidades_vendidas") = none →
        (normalizeOne y iso idx r1).unidadesVendidas = none) ∧
      (truthy (r1 "total_unidades") = true →
        jsParseNum (r1 "total_unidades") = none →
        (normalizeOne y iso idx r1).totalUnidades = none) ∧
      (truthy (r1 "preco_medio") = true → jsParseNum (r1 "preco_medio") = none →
        (normalizeOne y iso idx r1).preco = none) ∧
      (truthy (r1 "area_privativa") = true →
        jsParseNum (r1 "area_privativa") = none →
        (normalizeOne y iso idx r1).m2 = none) ∧
      (truthy (r1 "valor_m2") = true → jsParseNum (r1 "valor_m2") = none →
        (normalizeOne y iso idx r1).valorM2 = none) ∧
      (truthy (r1 "ano_lancamento") = true →
        jsParseNum (r1 "ano_lancamento") = none →
        (normalizeOne y iso idx r1).anoLancamento = none)) := by
  constructor
  · simp [normalizeOne, pick, h, jsParseNum]
  · intro r1
    refine ⟨?_, ?_, ?_, ?_, ?_, ?_, ?_, ?_, ?_⟩ <;>
      (intro ht hp; simp [normalizeOne, pick, ht, hp])

/-- Witness for C5: the all-absent record normalizes to the default record,
and a `"abc"` bedroom count parses to `NaN`. -/
theorem transformData_defaults_witness :
    normalizeOne 2026 "T" 0 emptyRaw = baseRec ∧
    (normalizeOne 2026 "T" 0 (rawWith "quartos" (.vstr "abc"))).quartos =
      none := by
  have h := transformData_defaults 2026 "T" 0 emptyRaw (fun _ => rfl)
  exact ⟨h.1,
    ((transformData_defaults 2026 "T" 0 emptyRaw (fun _ => rfl)).2
      (rawWith "quartos" (.vstr "abc"))).1 (by decide) (by decide)⟩

/-! ## C9: identifier fallback and uniqueness -/

/-- `transformFrom` over id-less records yields consecutive positional
identifiers. -/
theorem transformFrom_id_range (y : Int) (iso : String) :
    ∀ (l : List RawRecord) (idx : Nat), (∀ r ∈ l, truthy (r "id") = false) →
      (transformFrom y iso idx l).map (·.id) =
        (List.range' idx l.length).map (fun (i : Nat) => JValue.vnum (Int.ofNat i)) := by
  intro l
  induction l with
  | nil => intro idx _; simp [transformFrom]
  | cons r rest ih =>
      intro idx h
      have hr : truthy (r "id") = false := h r (by simp)
      have hrest : ∀ r1 ∈ rest, truthy (r1 "id") = false :=
        fun r1 hm => h r1 (by simp [hm])
      simp only [transformFrom, List.map_cons, List.length_cons,
        List.range'_succ]
      rw [ih (idx + 1) hrest]
      simp [normalizeOne, pick, hr]

/-- Counterexample to C9: an explicit upstream identifier 1 followed by an
absent one gives identifiers `[1, 1]` — the positional fallback collides
with the explicit identifier, so identifiers are not pairwise distinct. -/
theorem transformData_id_cex :
    (transformData 0 "" [rawWith "id" (.vnum 1), emptyRaw]).map (·.id) =
      [.vnum 1, .vnum 1] ∧
    ¬ List.Pairwise (· ≠ ·)
      ((transformData 0 "" [rawWith "id" (.vnum 1), emptyRaw]).map (·.id)) := by
  refine ⟨by decide, ?_⟩
  intro h
  rw [show (transformData 0 "" [rawWith "id" (.vnum 1), emptyRaw]).map (·.id) =
      [JValue.vnum 1, JValue.vnum 1] from by decide] at h
  exact (List.pairwise_cons.mp h).1 _ (by simp) rfl

/-- C9 (amended): a record whose identifier is absent (falsy through its
only alias) receives its positional index, and when every record of the
pass lacks an identifier the resulting identifiers are exactly
`0, 1, 2, ...` and in particular pairwise distinct. -/
theorem transformData_id_index (y : Int) (iso : String) (l : List RawRecord)
    (h : ∀ r ∈ l, truthy (r "id") = false) :
    (transformData y iso l).map (·.id) =
      (List.range l.length).map (fun (i : Nat) => JValue.vnum (Int.ofNat i)) ∧
    List.Pairwise (· ≠ ·) ((transformData y iso l).map (·.id)) := by
  have hmap := transformFrom_id_range y iso l 0 h
  have hmap' : (transformData y iso l).map (·.id) =
      (List.range l.length).map (fun (i : Nat) => JValue.vnum (Int.ofNat i)) := by
    rw [transformData, hmap, ← List.range_eq_range']
  refine ⟨hmap', ?_⟩
  rw [hmap', List.pairwise_map]
  refine (List.pairwise_lt_range _).imp ?_
  intro a b hab hEq
  injection hEq with hab'
  injection hab' with hab''
  omega

/-- Witness for C9: two id-less records get identifiers 0 and 1, distinct. -/
theorem transformData_id_index_witness :
    (transformData 0 "" [emptyRaw, emptyRaw]).map (·.id) =
      [.vnum 0, .vnum 1] ∧
    List.Pairwise (· ≠ ·)
      ((transformData 0 "" [emptyRaw, emptyRaw]).map (·.id)) := by
  have h := transformData_id_index 0 "" [emptyRaw, emptyRaw]
    (by
      intro r hr
      rcases (by simpa using hr : r = emptyRaw ∨ r = emptyRaw) with h1 | h1 <;>
        subst h1 <;> rfl)
  exact ⟨by rw [h.1]; decide, h.2⟩

/-! ## C7: the filter predicate -/

/-- The source's `if (v < lo || v > hi) return false` check passes iff the
value is `NaN` (every JS comparison with `NaN` is false) or lies within the
inclusive bounds. -/
theorem range_check (v : Option Int) (lo hi : Int) :
    (!(jsLt v lo || jsGt v hi)) = true ↔
      (v = none ∨ withinRange v lo hi = true) := by
  cases v <;> (simp [jsLt, jsGt, withinRange]; try omega)

/-- Counterexample to C7: a record whose private area is `NaN` passes the
source predicate under the default selection although its value lies within
no `[min, max]` bounds — the claimed characterization (the refinement
target `matchesClaim`, worded from the spec) rejects it. -/
theorem filteredData_matches_cex :
    matchesRecord DEFAULT_FILTERS { baseRec with m2 := none } = true ∧
    matchesClaim DEFAULT_FILTERS { baseRec with m2 := none } = false := by
  constructor <;> decide

/-- C7 (amended): membership in the filtered collection is characterized
dimension by dimension — every non-empty categorical selection must contain
the record's value, and every numeric dimension's value must be `NaN` (which
passes every JS comparison) or lie within the inclusive `[min, max]`
bounds; all dimensions combine by logical AND, and an empty categorical
selection imposes no constraint. -/
theorem filteredData_characterization (f : Filters) (i : NormalizedRecord)
    (l : List NormalizedRecord) :
    i ∈ filteredData l f ↔
      (i ∈ l ∧
       ((f.estados = [] ∨ i.estado ∈ f.estados) ∧
        (f.cidades = [] ∨ i.cidade ∈ f.cidades) ∧
        (f.bairros = [] ∨ i.bairro ∈ f.bairros) ∧
        (f.padroes = [] ∨ i.padrao ∈ f.padroes) ∧
        (f.status = [] ∨ i.status ∈ f.status) ∧
        (f.tipos = [] ∨ i.tipo ∈ f.tipos) ∧
        (f.tiposImovel = [] ∨ i.tipoImovel ∈ f.tiposImovel) ∧
        (f.quartos = [] ∨ i.quartos ∈ f.quartos) ∧
        (f.anosLancamento = [] ∨ i.anoLancamento ∈ f.anosLancamento) ∧
        (f.incorporadoras = [] ∨ i.incorporadora ∈ f.incorporadoras) ∧
        (i.m2 = none ∨ withinRange i.m2 f.m2Range.1 f.m2Range.2 = true) ∧
        (i.preco = none ∨
          withinRange i.preco f.ticketRange.1 f.ticketRange.2 = true) ∧
        (i.valorM2 = none ∨
          withinRange i.valorM2 f.valorM2Range.1 f.valorM2Range.2 = true))) := by
  rw [filteredData, List.mem_filter]
  refine and_congr Iff.rfl ?_
  rw [matchesRecord]
  simp only [Bool.and_eq_true, Bool.or_eq_true, List.isEmpty_iff,
    range_check, List.elem_iff, and_assoc]

/-! ## C1: pagination termination and stop conditions -/

/-- Against the adversarial server the loop never leaves its body: no fuel
is ever enough. -/
theorem fetchAllAux_fullPages (fuel : Nat) :
    ∀ (page : Nat) (acc : List Unit),
      fetchAllAux fullPages fuel page acc = none := by
  induction fuel with
  | zero => intro page acc; rfl
  | succ n ih =>
      intro page acc
      simp [fetchAllAux, fullPages, hasMore, perPage, ih]

/-- Counterexample to C1: the claim's universal termination fails — against
a server whose every page holds exactly 100 records and no metadata,
`fetchAllEmpreendimentos` loops forever (no fuel makes it return). -/
theorem fetchAll_terminates_cex :
    ¬ ∃ fuel : Nat, (fetchAll fullPages fuel).isSome = true := by
  rintro ⟨fuel, h⟩
  rw [fetchAll, fetchAllAux_fullPages] at h
  exact Bool.false_ne_true h

/-- Running the loop from `page` up to the first stopping page `p0` returns
the accumulated data of pages `page..p0`. -/
theorem fetchAllAux_run (pages : Nat → PageResponse α) (p0 : Nat)
    (hstop : stopsAt (pages p0) p0 = true) :
    ∀ (fuel page : Nat) (acc : List α), 1 ≤ page → page ≤ p0 →
      (∀ q, page ≤ q → q < p0 → stopsAt (pages q) q = false) →
      p0 - page < fuel →
      fetchAllAux pages fuel page acc =
        some (acc ++ ((List.range' page (p0 + 1 - page)).map
          (fun q => (pages q).data)).flatten) := by
  intro fuel
  induction fuel with
  | zero => intro page acc _ _ _ hf; omega
  | succ n ih =>
      intro page acc hp1 hple hbef hf
      by_cases hp : page = p0
      · subst hp
        have hone : page + 1 - page = 1 := by omega
        rw [hone, List.range'_one]
        by_cases hE : (pages page).data.isEmpty = true
        · have hnil : (pages page).data = [] := by
            simpa [List.isEmpty_iff] using hE
          simp [fetchAllAux, hE, hnil]
        · have hM : hasMore (pages page) page = false := by
            simp [stopsAt, Bool.or_eq_true] at hstop
            rcases hstop with h | h
            · exact absurd (List.isEmpty_iff.mpr h) hE
            · simpa using h
          simp [fetchAllAux, hE, hM]
      · have hlt : page < p0 := lt_of_le_of_ne hple hp
        have hs : stopsAt (pages page) page = false := hbef page le_rfl hlt
        rw [stopsAt, Bool.or_eq_false_iff] at hs
        have hE : (pages page).data.isEmpty = false := hs.1
        have hM : hasMore (pages page) page = true := by
          simpa using hs.2
        have hrec := ih (page + 1) (acc ++ (pages page).data)
          (by omega) (by omega)
          (fun q hq1 hq2 => hbef q (by omega) hq2) (by omega)
        have hsplit : p0 + 1 - page = (p0 + 1 - (page + 1)) + 1 := by omega
        rw [hsplit, List.range'_succ]
        simp only [fetchAllAux, hE, hM, Bool.false_eq_true, if_false, if_true,
          List.map_cons, List.flatten_cons]
        rw [hrec]
        simp [List.append_assoc]

/-- C1 (amended): whenever some page satisfies a stop condition — an empty
record list (checked first), metadata saying the page is the last, or
(without metadata) a short page — the retrieval terminates at the first
such page `p0`, returning exactly the data of pages `1..p0`; with no such
page (the adversarial full-page stream of the counterexample) the loop
runs forever. -/
theorem fetchAll_stops_at_first (pages : Nat → PageResponse α)
    (p0 fuel : Nat) (h1 : 1 ≤ p0) (hstop : stopsAt (pages p0) p0 = true)
    (hbefore : ∀ q, 1 ≤ q → q < p0 → stopsAt (pages q) q = false)
    (hfuel : p0 ≤ fuel) :
    fetchAll pages fuel =
      some (((List.range' 1 p0).map (fun q => (pages q).data)).flatten) := by
  have h := fetchAllAux_run pages p0 hstop fuel 1 [] le_rfl h1
    (fun q hq1 hq2 => hbefore q hq1 hq2) (by omega)
  simpa [fetchAll, show p0 + 1 - 1 = p0 by omega] using h

/-- Witness for C1: a full first page without metadata followed by an empty
second page stops the loop at page 2 with the 100 records of page 1. -/
theorem fetchAll_stops_at_first_witness :
    fetchAll twoPages 2 = some (List.replicate 100 7) := by
  have h := fetchAll_stops_at_first twoPages 2 2 (by decide) (by decide)
    (fun q hq1 hq2 => by
      have hq : q = 1 := by omega
      subst hq; decide)
    le_rfl
  rw [h]
  decide

/-! ## C6: idempotence of normalization -/

/-- An all-falsy fallback chain yields its default. -/
theorem pick_all_falsy (vs : List JValue) (d : JValue)
    (h : ∀ x ∈ vs, truthy x = false) : pick vs d = d := by
  induction vs with
  | nil => rfl
  | cons v vs ih =>
      rw [pick, h v (by simp), if_neg (by simp)]
      exact ih fun x hx => h x (by simp [hx])

/-- `pick [v] v = v` whatever the truthiness of `v`. -/
theorem pick_singleton_self (v : JValue) : pick [v] v = v := by
  by_cases h : truthy v = true <;> simp [pick, h]

/-- Re-parsing a written-back number through a chain of absent aliases with
default 0 recovers the number (a zero falls through to the default 0). -/
theorem jsParse_pick_num0 (v : Int) (rest : List JValue)
    (h : ∀ x ∈ rest, truthy x = false) :
    jsParseNum (pick (numToJ (some v) :: rest) (.vnum 0)) = some v := by
  by_cases hv : v = 0
  · subst hv
    rw [pick, if_neg (by simp [numToJ, truthy]), pick_all_falsy rest _ h]
    rfl
  · rw [pick, if_pos (by simp [numToJ, truthy, hv])]
    rfl

/-- Re-parsing a written-back non-zero number recovers it whatever the
default. -/
theorem jsParse_pick_num_ne (v : Int) (hv : v ≠ 0) (rest : List JValue)
    (d : JValue) :
    jsParseNum (pick (numToJ (some v) :: rest) d) = some v := by
  rw [pick, if_pos (by simp [numToJ, truthy, hv])]
  rfl

/-- Re-normalizing one normalized record (written back through the primary
aliases) at the same position is the identity, provided the record is
NaN-free, its bedroom count and launch year are non-zero and its timestamp
is truthy. -/
theorem normalizeOne_idem (y1 y2 : Int) (iso1 iso2 : String) (idx : Nat)
    (r : RawRecord) (hg : goodRec (normalizeOne y1 iso1 idx r)) :
    normalizeOne y2 iso2 idx (toRaw (normalizeOne y1 iso1 idx r)) =
      normalizeOne y1 iso1 idx r := by
  obtain ⟨hqS, hq0, hvtS, hvvS, huvS, htuS, hpS, hm2S, hvmS, haS, ha0, hdat⟩ := hg
  set n := normalizeOne y1 iso1 idx r with hn
  obtain ⟨q, hq⟩ := Option.isSome_iff_exists.mp hqS
  obtain ⟨vt, hvt⟩ := Option.isSome_iff_exists.mp hvtS
  obtain ⟨vv, hvv⟩ := Option.isSome_iff_exists.mp hvvS
  obtain ⟨uv, huv⟩ := Option.isSome_iff_exists.mp huvS
  obtain ⟨tu, htu⟩ := Option.isSome_iff_exists.mp htuS
  obtain ⟨pr, hpr⟩ := Option.isSome_iff_exists.mp hpS
  obtain ⟨m2v, hm2⟩ := Option.isSome_iff_exists.mp hm2S
  obtain ⟨vm, hvm⟩ := Option.isSome_iff_exists.mp hvmS
  obtain ⟨av, hav⟩ := Option.isSome_iff_exists.mp haS
  have hqne : q ≠ 0 := fun hc => hq0 (by rw [hq, hc])
  have hane : av ≠ 0 := fun hc => ha0 (by rw [hav, hc])
  have hnome : truthy n.nome = true := truthy_pick _ _ (by decide)
  have hcid : truthy n.cidade = true := truthy_pick _ _ (by decide)
  have hest : truthy n.estado = true := truthy_pick _ _ (by decide)
  have hbai : truthy n.bairro = true := truthy_pick _ _ (by decide)
  have hinc : truthy n.incorporadora = true := truthy_pick _ _ (by decide)
  have htip : truthy n.tipo = true := truthy_pick _ _ (by decide)
  have hpad : truthy n.padrao = true := truthy_pick _ _ (by decide)
  have htim : truthy n.tipoImovel = true := truthy_pick _ _ (by decide)
  have hsta : truthy n.status = true := truthy_pick _ _ (by decide)
  apply NormalizedRecord.ext
  case id =>
    show pick [n.id] (.vnum idx) = n.id
    by_cases hid : truthy (r "id") = true
    · have hne : n.id = r "id" := pick_cons_truthy _ _ hid
      rw [hne]
      exact pick_cons_truthy _ _ hid
    · have hif : truthy (r "id") = false := by simpa using hid
      have hne : n.id = .vnum idx := by
        show pick [r "id"] (.vnum idx) = _
        rw [pick_cons_falsy _ _ hif, pick]
      rw [hne]
      exact pick_singleton_self _
  case nome =>
    show pick [n.nome, .vundefined, .vundefined] (.vstr "N/A") = n.nome
    exact pick_cons_truthy _ _ hnome
  case cidade =>
    show pick [n.cidade, .vundefined] (.vstr "N/A") = n.cidade
    exact pick_cons_truthy _ _ hcid
  case estado =>
    show pick [n.estado, .vundefined, .vundefined] (.vstr "N/A") = n.estado
    exact pick_cons_truthy _ _ hest
  case bairro =>
    show pick [n.bairro, .vundefined] (.vstr "N/A") = n.bairro
    exact pick_cons_truthy _ _ hbai
  case incorporadora =>
    show pick [n.incorporadora, .vundefined, .vundefined] (.vstr "N/A") = n.incorporadora
    exact pick_cons_truthy _ _ hinc
  case tipo =>
    show pick [n.tipo, .vundefined] (.vstr "Vertical") = n.tipo
    exact pick_cons_truthy _ _ htip
  case padrao =>
    show pick [n.padrao, .vundefined] (.vstr "Standard") = n.padrao
    exact pick_cons_truthy _ _ hpad
  case tipoImovel =>
    show pick [n.tipoImovel, .vundefined, .vundefined] (.vstr "Padrao") = n.tipoImovel
    exact pick_cons_truthy _ _ htim
  case quartos =>
    show jsParseNum (pick [numToJ n.quartos, .vundefined, .vundefined] (.vnum 2)) =
      n.quartos
    rw [hq]
    rw [jsParse_pick_num_ne q hqne]
  case vgvTotal =>
    show jsParseNum (pick [numToJ n.vgvTotal, .vundefined, .vundefined] (.vnum 0)) =
      n.vgvTotal
    rw [hvt, jsParse_pick_num0 vt _ (by decide)]
  case vgvVendido =>
    show jsParseNum (pick [numToJ n.vgvVendido, .vundefined] (.vnum 0)) =
      n.vgvVendido
    rw [hvv, jsParse_pick_num0 vv _ (by decide)]
  case unidadesVendidas =>
    show jsParseNum (pick [numToJ n.unidadesVendidas, .vundefined] (.vnum 0)) =
      n.unidadesVendidas
    rw [huv, jsParse_pick_num0 uv _ (by decide)]
  case totalUnidades =>
    show jsParseNum (pick [numToJ n.totalUnidades, .vundefined, .vundefined] (.vnum 0)) =
      n.totalUnidades
    rw [htu, jsParse_pick_num0 tu _ (by decide)]
  case preco =>
    show jsParseNum (pick [numToJ n.preco, .vundefined, .vundefined] (.vnum 0)) = n.preco
    rw [hpr, jsParse_pick_num0 pr _ (by decide)]
  case m2 =>
    show jsParseNum (pick [numToJ n.m2, .vundefined, .vundefined] (.vnum 0)) = n.m2
    rw [hm2, jsParse_pick_num0 m2v _ (by decide)]
  case valorM2 =>
    show jsParseNum (pick [numToJ n.valorM2, .vundefined] (.vnum 0)) = n.valorM2
    rw [hvm, jsParse_pick_num0 vm _ (by decide)]
  case status =>
    show pick [n.status] (.vstr "Comercializacao") = n.status
    exact pick_cons_truthy _ _ hsta
  case anoLancamento =>
    show jsParseNum (pick [numToJ n.anoLancamento, .vundefined, .vundefined]
      (.vnum y2)) = n.anoLancamento
    rw [hav]
    rw [jsParse_pick_num_ne av hane]
  case dataAtualizacao =>
    show pick [n.dataAtualizacao, .vundefined] (.vstr iso2) = n.dataAtualizacao
    exact pick_cons_truthy _ _ hdat

/-- `normalizeOne_idem`, lifted along the index-carrying map. -/
theorem transformFrom_idem (y1 y2 : Int) (iso1 iso2 : String) :
    ∀ (l : List RawRecord) (idx : Nat),
      (∀ n ∈ transformFrom y1 iso1 idx l, goodRec n) →
      transformFrom y2 iso2 idx
        ((transformFrom y1 iso1 idx l).map toRaw) =
        transformFrom y1 iso1 idx l := by
  intro l
  induction l with
  | nil => intro idx _; rfl
  | cons r rest ih =>
      intro idx h
      have hhead : goodRec (normalizeOne y1 iso1 idx r) :=
        h _ (by simp [transformFrom])
      have htail := ih (idx + 1) fun n hn => h n (by simp [transformFrom, hn])
      simp only [transformFrom, List.map_cons]
      rw [normalizeOne_idem y1 y2 iso1 iso2 idx r hhead, htail]

/-- Counterexample to C6: a raw record whose launched value is the truthy
non-numeric string "abc" normalizes to `NaN`; feeding the output back turns
the `NaN` (falsy) into the default 0, so the second normalization differs
from the first. -/
theorem transformData_idem_cex :
    transformData 0 "T"
      ((transformData 0 "T" [rawWith "vgv_total" (.vstr "abc")]).map toRaw) ≠
      transformData 0 "T" [rawWith "vgv_total" (.vstr "abc")] := by
  decide

/-- C6 (amended): re-normalizing the normalizer's output (written back
through the primary alias of each canonical field) returns the same
records, provided every parsed numeric field of the first output is an
actual number (no `NaN`), bedroom count and launch year are non-zero (their
defaults 2 and the current year would overwrite a written-back falsy 0),
and the update timestamp is truthy. -/
theorem transformData_idempotent (y1 y2 : Int) (iso1 iso2 : String)
    (l : List RawRecord)
    (h : ∀ n ∈ transformData y1 iso1 l, goodRec n) :
    transformData y2 iso2 ((transformData y1 iso1 l).map toRaw) =
      transformData y1 iso1 l :=
  transformFrom_idem y1 y2 iso1 iso2 l 0 h

/-- Witness for C6: the all-defaults output of an absent-field record
re-normalizes to itself. -/
theorem transformData_idempotent_witness :
    transformData 2026 "T" ((transformData 2026 "T" [emptyRaw]).map toRaw) =
      transformData 2026 "T" [emptyRaw] :=
  transformData_idempotent 2026 2026 "T" "T" [emptyRaw] (by decide)

/-! ## C8: grouped sums -/

/-- Membership in the dedup pass: accumulated or still to come. -/
theorem firstDedup_go_mem (K : JValue) :
    ∀ (ks acc : List JValue),
      (K ∈ firstDedup.go acc ks ↔ K ∈ acc ∨ K ∈ ks) := by
  intro ks
  induction ks with
  | nil => intro acc; simp [firstDedup.go]
  | cons k ks ih =>
      intro acc
      by_cases hk : k ∈ acc
      · rw [firstDedup.go, if_pos hk, ih]
        constructor
        · rintro (h | h)
          · exact Or.inl h
          · exact Or.inr (List.mem_cons_of_mem _ h)
        · rintro (h | h)
          · exact Or.inl h
          · rcases List.mem_cons.mp h with h1 | h1
            · exact Or.inl (h1 ▸ hk)
            · exact Or.inr h1
      · rw [firstDedup.go, if_neg hk, ih]
        simp [List.mem_append, List.mem_cons]
        tauto

/-- `firstDedup` keeps exactly the values of the list. -/
theorem firstDedup_mem (K : JValue) (ks : List JValue) :
    K ∈ firstDedup ks ↔ K ∈ ks := by
  rw [firstDedup, firstDedup_go_mem]
  simp

/-- Appending one value to the dedup pass. -/
theorem firstDedup_go_append1 :
    ∀ (ks acc : List JValue) (K : JValue),
      firstDedup.go acc (ks ++ [K]) =
        if K ∈ firstDedup.go acc ks then firstDedup.go acc ks
        else firstDedup.go acc ks ++ [K] := by
  intro ks
  induction ks with
  | nil => intro acc K; simp [firstDedup.go]
  | cons k ks ih =>
      intro acc K
      by_cases hk : k ∈ acc <;> simp [firstDedup.go, hk, ih]

/-- Appending one value to `firstDedup`. -/
theorem firstDedup_append1 (ks : List JValue) (K : JValue) :
    firstDedup (ks ++ [K]) =
      if K ∈ firstDedup ks then firstDedup ks else firstDedup ks ++ [K] :=
  firstDedup_go_append1 ks [] K

/-- Appending one record to a per-group launched-value sum. -/
theorem sumTotalFor_append1 (k : NormalizedRecord → JValue) (K : JValue)
    (l : List NormalizedRecord) (i : NormalizedRecord) :
    sumTotalFor k K (l ++ [i]) =
      sumTotalFor k K l + (if k i = K then jsum i.vgvTotal else 0) := by
  by_cases h : k i = K <;>
    simp [sumTotalFor, List.filter_append, h]

/-- Appending one record to a per-group sold-value sum. -/
theorem sumSoldFor_append1 (k : NormalizedRecord → JValue) (K : JValue)
    (l : List NormalizedRecord) (i : NormalizedRecord) :
    sumSoldFor k K (l ++ [i]) =
      sumSoldFor k K l + (if k i = K then jsum i.vgvVendido else 0) := by
  by_cases h : k i = K <;>
    simp [sumSoldFor, List.filter_append, h]

/-- A key no record carries sums to 0. -/
theorem sumTotalFor_of_not_mem (k : NormalizedRecord → JValue) (K : JValue)
    (l : List NormalizedRecord) (h : K ∉ l.map k) : sumTotalFor k K l = 0 := by
  rw [sumTotalFor]
  have hf : l.filter (fun i => decide (k i = K)) = [] := by
    rw [List.filter_eq_nil_iff]
    intro i hi
    simp only [decide_eq_true_eq]
    intro hc
    exact h (hc ▸ List.mem_map_of_mem k hi)
  rw [hf]
  rfl

/-- A key no record carries sums to sold-value 0. -/
theorem sumSoldFor_of_not_mem (k : NormalizedRecord → JValue) (K : JValue)
    (l : List NormalizedRecord) (h : K ∉ l.map k) : sumSoldFor k K l = 0 := by
  rw [sumSoldFor]
  have hf : l.filter (fun i => decide (k i = K)) = [] := by
    rw [List.filter_eq_nil_iff]
    intro i hi
    simp only [decide_eq_true_eq]
    intro hc
    exact h (hc ▸ List.mem_map_of_mem k hi)
  rw [hf]
  rfl

/-- The grouping loop in closed form: one entry per distinct key, in first
encounter order, holding that key's launched and sold sums. -/
theorem groupTS_eq (k : NormalizedRecord → JValue)
    (l : List NormalizedRecord) :
    groupTS k l = (firstDedup (l.map k)).map
      (fun K => ⟨K, sumTotalFor k K l, sumSoldFor k K l⟩) := by
  induction l using List.reverseRecOn with
  | nil => rfl
  | append_singleton l i ih =>
      have hstep : groupTS k (l ++ [i]) = upsertTS k (groupTS k l) i := by
        simp [groupTS, List.foldl_append]
      have hkeys : (l ++ [i]).map k = l.map k ++ [k i] := by
        simp
      rw [hstep, ih, hkeys, firstDedup_append1]
      by_cases hmem : k i ∈ firstDedup (l.map k)
      · rw [if_pos hmem, upsertTS, if_pos ?hp]
        case hp =>
          rw [List.any_eq_true]
          exact ⟨⟨k i, sumTotalFor k (k i) l, sumSoldFor k (k i) l⟩,
            List.mem_map_of_mem _ hmem, by simp⟩
        rw [List.map_map]
        refine List.map_congr_left fun K hK => ?_
        by_cases hki : K = k i
        · subst hki
          simp [sumTotalFor_append1, sumSoldFor_append1]
        · have hki' : ¬(k i = K) := fun hc => hki hc.symm
          simp [Function.comp, hki, sumTotalFor_append1, sumSoldFor_append1,
            hki']
      · rw [if_neg hmem, upsertTS, if_neg ?hn]
        case hn =>
          rw [List.any_eq_true]
          rintro ⟨e, he, hp⟩
          rcases List.mem_map.mp he with ⟨K, hK, hKe⟩
          rw [← hKe] at hp
          simp only [decide_eq_true_eq] at hp
          exact hmem (hp ▸ hK)
        rw [List.map_append]
        refine congrArg₂ (· ++ ·) ?_ ?_
        · refine List.map_congr_left fun K hK => ?_
          have hki : ¬(k i = K) := by
            intro hc
            exact hmem (hc ▸ hK)
          simp [sumTotalFor_append1, sumSoldFor_append1, hki]
        · have hni : k i ∉ l.map k := fun hc =>
            hmem ((firstDedup_mem _ _).mpr hc)
          simp [sumTotalFor_append1, sumSoldFor_append1,
            sumTotalFor_of_not_mem k (k i) l hni,
            sumSoldFor_of_not_mem k (k i) l hni]

/-- The launched-only grouping loop in closed form. -/
theorem groupT_eq (k : NormalizedRecord → JValue)
    (l : List NormalizedRecord) :
    groupT k l = (firstDedup (l.map k)).map
      (fun K => ⟨K, sumTotalFor k K l⟩) := by
  induction l using List.reverseRecOn with
  | nil => rfl
  | append_singleton l i ih =>
      have hstep : groupT k (l ++ [i]) = upsertT k (groupT k l) i := by
        simp [groupT, List.foldl_append]
      have hkeys : (l ++ [i]).map k = l.map k ++ [k i] := by
        simp
      rw [hstep, ih, hkeys, firstDedup_append1]
      by_cases hmem : k i ∈ firstDedup (l.map k)
      · rw [if_pos hmem, upsertT, if_pos ?hp]
        case hp =>
          rw [List.any_eq_true]
          exact ⟨⟨k i, sumTotalFor k (k i) l⟩,
            List.mem_map_of_mem _ hmem, by simp⟩
        rw [List.map_map]
        refine List.map_congr_left fun K hK => ?_
        by_cases hki : K = k i
        · subst hki
          simp [sumTotalFor_append1]
        · have hki' : ¬(k i = K) := fun hc => hki hc.symm
          simp [Function.comp, hki, sumTotalFor_append1, hki']
      · rw [if_neg hmem, upsertT, if_neg ?hn]
        case hn =>
          rw [List.any_eq_true]
          rintro ⟨e, he, hp⟩
          rcases List.mem_map.mp he with ⟨K, hK, hKe⟩
          rw [← hKe] at hp
          simp only [decide_eq_true_eq] at hp
          exact hmem (hp ▸ hK)
        rw [List.map_append]
        refine congrArg₂ (· ++ ·) ?_ ?_
        · refine List.map_congr_left fun K hK => ?_
          have hki : ¬(k i = K) := by
            intro hc
            exact hmem (hc ▸ hK)
          simp [sumTotalFor_append1, hki]
        · have hni : k i ∉ l.map k := fun hc =>
            hmem ((firstDedup_mem _ _).mpr hc)
          simp [sumTotalFor_append1,
            sumTotalFor_of_not_mem k (k i) l hni]

/-- `sortInsert` inserts: the result is a permutation of the element
consed onto the list. -/
theorem sortInsert_perm (x : GroupTotSold) (l : List GroupTotSold) :
    (sortInsert x l).Perm (x :: l) := by
  induction l with
  | nil => simp [sortInsert]
  | cons y ys ih =>
      rw [sortInsert]
      by_cases hc : y.vgvTotal < x.vgvTotal
      · rw [if_pos hc]
      · rw [if_neg hc]
        exact (List.Perm.cons y ih).trans (List.Perm.swap x y ys)

/-- The stable insertion sort permutes its input. -/
theorem sortByTotalDesc_perm (l : List GroupTotSold) :
    (sortByTotalDesc l).Perm l := by
  have hgen : ∀ (l acc : List GroupTotSold),
      (l.foldl (fun a x => sortInsert x a) acc).Perm (acc ++ l) := by
    intro l
    induction l with
    | nil => intro acc; simp
    | cons x xs ih =>
        intro acc
        have h2 := ih (sortInsert x acc)
        have h3 : (sortInsert x acc ++ xs).Perm ((x :: acc) ++ xs) :=
          (sortInsert_perm x acc).append_right xs
        have h5 : ((x :: acc) ++ xs).Perm (acc ++ x :: xs) :=
          List.perm_middle.symm
        exact (h2.trans h3).trans h5
  have h := hgen l []
  simpa [sortByTotalDesc] using h

/-- `sortInsert` into a descending list stays descending. -/
theorem sortInsert_sorted (x : GroupTotSold) (l : List GroupTotSold)
    (h : SortedDesc l) : SortedDesc (sortInsert x l) := by
  induction l with
  | nil => simp [sortInsert, SortedDesc]
  | cons y ys ih =>
      rw [SortedDesc, List.pairwise_cons] at h
      rw [sortInsert]
      by_cases hc : y.vgvTotal < x.vgvTotal
      · rw [if_pos hc, SortedDesc, List.pairwise_cons]
        refine ⟨?_, ?_⟩
        · intro b hb
          rcases List.mem_cons.mp hb with hb1 | hb1
          · subst hb1; omega
          · have := h.1 b hb1
            omega
        · rw [SortedDesc] at *
          exact List.pairwise_cons.mpr h
      · rw [if_neg hc, SortedDesc, List.pairwise_cons]
        refine ⟨?_, ih h.2⟩
        intro b hb
        rcases (sortInsert_perm x ys).mem_iff.mp hb with hb1
        rcases List.mem_cons.mp hb1 with hb2 | hb2
        · subst hb2; omega
        · exact h.1 b hb2

/-- The stable insertion sort sorts descending by launched value. -/
theorem sortByTotalDesc_sorted (l : List GroupTotSold) :
    SortedDesc (sortByTotalDesc l) := by
  have hgen : ∀ (l acc : List GroupTotSold), SortedDesc acc →
      SortedDesc (l.foldl (fun a x => sortInsert x a) acc) := by
    intro l
    induction l with
    | nil => intro acc h; exact h
    | cons x xs ih =>
        intro acc h
        exact ih (sortInsert x acc) (sortInsert_sorted x acc h)
  exact hgen l [] (by simp [SortedDesc])

/-- A list of strictly smaller totals has no entry with total `t`. -/
theorem filter_total_eq_nil (l : List GroupTotSold) (t : Int)
    (h : ∀ e ∈ l, e.vgvTotal < t) :
    l.filter (fun e => e.vgvTotal == t) = [] := by
  rw [List.filter_eq_nil_iff]
  intro e he
  simp only [beq_iff_eq]
  exact (h e he).ne

/-- Stability of one insertion: inserting into a sorted list places the new
entry after every equal-total entry, so the total-`t` slice either gains
the entry at its end or is unchanged. -/
theorem sortInsert_filter (x : GroupTotSold) (t : Int) :
    ∀ (l : List GroupTotSold), SortedDesc l →
      (sortInsert x l).filter (fun e => e.vgvTotal == t) =
        if x.vgvTotal = t
        then l.filter (fun e => e.vgvTotal == t) ++ [x]
        else l.filter (fun e => e.vgvTotal == t) := by
  intro l
  induction l with
  | nil =>
      intro _
      by_cases hx : x.vgvTotal = t <;> simp [sortInsert, List.filter_cons, hx]
  | cons y ys ih =>
      intro h
      rw [SortedDesc, List.pairwise_cons] at h
      rw [sortInsert]
      by_cases hc : y.vgvTotal < x.vgvTotal
      · rw [if_pos hc]
        by_cases hx : x.vgvTotal = t
        · have hnil : (y :: ys).filter (fun e => e.vgvTotal == t) = [] := by
            refine filter_total_eq_nil _ _ fun e he => ?_
            rcases List.mem_cons.mp he with h1 | h1
            · subst h1; omega
            · have := h.1 e h1
              omega
          rw [if_pos hx]
          rw [List.filter_cons]
          simp only [hx, beq_self_eq_true, if_pos]
          rw [hnil]
          simp
        · rw [if_neg hx]
          simp [List.filter_cons, hx]
      · rw [if_neg hc]
        have ihy := ih h.2
        by_cases hx : x.vgvTotal = t <;> by_cases hy : y.vgvTotal = t <;>
          simp [List.filter_cons, hx, hy, ihy]

/-- Stability of the whole sort: for every total `t`, the total-`t` entries
keep their relative (first-encounter) order. -/
theorem sortByTotalDesc_filter (l : List GroupTotSold) (t : Int) :
    (sortByTotalDesc l).filter (fun e => e.vgvTotal == t) =
      l.filter (fun e => e.vgvTotal == t) := by
  have hgen : ∀ (l acc : List GroupTotSold), SortedDesc acc →
      (l.foldl (fun a x => sortInsert x a) acc).filter
          (fun e => e.vgvTotal == t) =
        acc.filter (fun e => e.vgvTotal == t) ++
          l.filter (fun e => e.vgvTotal == t) := by
    intro l
    induction l with
    | nil => intro acc _; simp
    | cons x xs ih =>
        intro acc h
        have h1 := ih (sortInsert x acc) (sortInsert_sorted x acc h)
        rw [List.foldl_cons, h1, sortInsert_filter x t acc h]
        by_cases hx : x.vgvTotal = t <;> simp [List.filter_cons, hx]
  have h := hgen l [] (by simp [SortedDesc])
  simpa [sortByTotalDesc] using h

/-- Counterexample to C8: the type series is not sorted descending — two
types encountered in ascending launched-value order stay in encounter
order, because the source returns `Object.values(g)` without sorting. -/
theorem vgvPorTipo_unsorted_cex :
    (vgvPorTipo cexTipo).map (fun e => e.vgvTotal) = [10, 50] ∧
    ¬ ((vgvPorTipo cexTipo).map (fun e => e.vgvTotal)).Pairwise
      (fun a b => b ≤ a) := by
  constructor
  · decide
  · intro h
    rw [show (vgvPorTipo cexTipo).map (fun e => e.vgvTotal) =
        [(10 : Int), 50] from by decide] at h
    have h50 := (List.pairwise_cons.mp h).1 50 (by simp)
    omega

/-- C8 (amended): the city and quality-tier series group by the dimension
value, sum launched and sold values per group, sort descending by
launched-value total with ties kept in first-encounter order (stable), and
truncate to the top 8; the type series sums launched value per group but is
returned in first-encounter order, neither sorted nor truncated; the
claim's scenario holds. -/
theorem vgv_grouped_sums :
    (vgvPorCidade scenCidade =
      [⟨.vstr "A", 150, 0⟩, ⟨.vstr "B", 30, 0⟩]) ∧
    (∀ l : List NormalizedRecord,
      (vgvPorCidade l).length ≤ 8 ∧ (vgvPorPadrao l).length ≤ 8) ∧
    (∀ l : List NormalizedRecord,
      SortedDesc (vgvPorCidade l) ∧ SortedDesc (vgvPorPadrao l)) ∧
    (∀ (l : List NormalizedRecord) (e : GroupTotSold), e ∈ vgvPorCidade l →
      e.vgvTotal = sumTotalFor (fun i => i.cidade) e.key l ∧
      e.vgvVendido = sumSoldFor (fun i => i.cidade) e.key l) ∧
    (∀ (l : List NormalizedRecord) (e : GroupTotSold), e ∈ vgvPorPadrao l →
      e.vgvTotal = sumTotalFor (fun i => i.padrao) e.key l ∧
      e.vgvVendido = sumSoldFor (fun i => i.padrao) e.key l) ∧
    (∀ (l : List NormalizedRecord) (t : Int),
      (sortByTotalDesc (groupTS (fun i => i.cidade) l)).filter
          (fun e => e.vgvTotal == t) =
        (groupTS (fun i => i.cidade) l).filter (fun e => e.vgvTotal == t)) ∧
    (∀ l : List NormalizedRecord,
      (vgvPorTipo l).map (fun e => e.key) =
        firstDedup (l.map (fun i => i.tipo))) ∧
    (∀ (l : List NormalizedRecord) (e : GroupTot), e ∈ vgvPorTipo l →
      e.vgvTotal = sumTotalFor (fun i => i.tipo) e.key l) := by
  refine ⟨by decide, ?_, ?_, ?_, ?_, ?_, ?_, ?_⟩
  · intro l
    exact ⟨List.length_take_le _ _, List.length_take_le _ _⟩
  · intro l
    exact ⟨List.Pairwise.sublist (List.take_sublist 8 _)
        (sortByTotalDesc_sorted _),
      List.Pairwise.sublist (List.take_sublist 8 _)
        (sortByTotalDesc_sorted _)⟩
  · intro l e he
    rw [vgvPorCidade] at he
    have h1 := List.mem_of_mem_take he
    have h2 := (sortByTotalDesc_perm _).mem_iff.mp h1
    rw [groupTS_eq] at h2
    rcases List.mem_map.mp h2 with ⟨K, _, hKe⟩
    rw [← hKe]
    exact ⟨rfl, rfl⟩
  · intro l e he
    rw [vgvPorPadrao] at he
    have h1 := List.mem_of_mem_take he
    have h2 := (sortByTotalDesc_perm _).mem_iff.mp h1
    rw [groupTS_eq] at h2
    rcases List.mem_map.mp h2 with ⟨K, _, hKe⟩
    rw [← hKe]
    exact ⟨rfl, rfl⟩
  · intro l t
    exact sortByTotalDesc_filter _ t
  · intro l
    rw [vgvPorTipo, groupT_eq, List.map_map]
    exact List.map_id _
  · intro l e he
    rw [vgvPorTipo, groupT_eq] at he
    rcases List.mem_map.mp he with ⟨K, _, hKe⟩
    rw [← hKe]

/-- Witness for C8: on the claim's own scenario the city grouping is
`[A: 150, B: 30]`, and the A-entry's total is indeed the launched-value
sum of the city-A records. -/
theorem vgv_grouped_sums_witness :
    vgvPorCidade scenCidade = [⟨.vstr "A", 150, 0⟩, ⟨.vstr "B", 30, 0⟩] ∧
    (⟨.vstr "A", (150 : Int), (0 : Int)⟩ : GroupTotSold).vgvTotal =
      sumTotalFor (fun i => i.cidade) (.vstr "A") scenCidade := by
  have h := vgv_grouped_sums
  refine ⟨h.1, ?_⟩
  have hm : (⟨.vstr "A", (150 : Int), (0 : Int)⟩ : GroupTotSold) ∈
      vgvPorCidade scenCidade := by
    rw [h.1]
    exact List.mem_cons_self _ _
  exact (h.2.2.2.1 scenCidade _ hm).1

end Dashboard
